import Mathlib

/-!
Shallow embedding of the `test-report-action` GitHub Action.

The repository holds three variants of the same small program:
* `src/unnamed/part_000` — `run` reads the report file, groups failed tests by
  file path (`processTest`), and sets the step output `output` to either the
  JSON payload or the literal success string (presence-gated).
* `src/src/main.ts`, first variant (lines 1-150) — `parseGitEvent` plus a
  counter-gated `run` (`summary.failed > 0`) that only logs.
* `src/src/main.ts`, second variant (lines 151-329) — `parseGitEvent` plus a
  presence-gated `run` that only logs.

TypeScript objects used as dictionaries (`failedTestsByFile`, `summary`) are
embedded as insertion-ordered association lists; `undefined` / absent fields
are embedded as `Option`; thrown exceptions as `Except`.
-/

namespace TestReportAction

/-- The `Test` interface of the report file (`part_000` lines 22-34,
`main.ts` lines 215-227). Optional fields are `Option`. -/
structure Test where
  name : String
  status : String
  duration : Int
  message : Option String
  trace : Option String
  rawStatus : String
  type : String
  filePath : String
  retries : Nat
  flaky : Bool
  browser : String
deriving DecidableEq

/-- The `summary` object is pass-through: an insertion-ordered object with
numeric counter values (only emptiness and the `failed` counter are read). -/
abbrev Summary := List (String × Int)

/-- The `failedTestsByFile` dictionary: a JS object with string keys in
insertion order, each holding an array of tests. -/
abbrev FailureMap := List (String × List Test)

/-- Embedding of `obj[key]` on the failure dictionary: the list stored under
`key`, and `[]` when the key is absent (JS `undefined` is falsy, so the code
treats absence and emptiness alike before the first push). -/
def lookupList (m : FailureMap) (k : String) : List Test :=
  match m with
  | [] => []
  | (k', ts) :: rest => if k' = k then ts else lookupList rest k

/-- Embedding of `failedTestsByFile[filePath].push(test)` together with the
create-on-first-encounter step (`part_000` lines 39-42): append `t` to the
list under `k`, creating the entry at the end of the object when absent. -/
def pushTest (m : FailureMap) (k : String) (t : Test) : FailureMap :=
  match m with
  | [] => [(k, [t])]
  | (k', ts) :: rest =>
      if k' = k then (k', ts ++ [t]) :: rest else (k', ts) :: pushTest rest k t

/-- Embedding of `processTest` (`part_000` lines 36-44, `main.ts` lines
298-305): a failed test is pushed under its `filePath`; any other status
leaves the map alone. -/
def processTest (m : FailureMap) (t : Test) : FailureMap :=
  if t.status = "failed" then pushTest m t.filePath t else m

/-- Embedding of `tests.forEach(processTest)` starting from the empty object
(`part_000` lines 20 and 46): the failure mapping of a test sequence. -/
def failedTestsByFile (tests : List Test) : FailureMap :=
  tests.foldl processTest []

/-- Predicate selecting the tests of the input that are failed and grouped
under key `k`. -/
def isFailedAt (k : String) (t : Test) : Bool :=
  t.status == "failed" && t.filePath == k

/-- Total number of tests stored across all per-file lists of the mapping. -/
def totalCount (m : FailureMap) : Nat :=
  (m.map fun p => p.2.length).sum

/-- Structural invariant of the mapping, as a proposition: every entry holds
a non-empty list of failed tests whose `filePath` is the entry's key. -/
def mappingOk (m : FailureMap) : Prop :=
  ∀ p ∈ m, p.2 ≠ [] ∧ ∀ t ∈ p.2, t.status = "failed" ∧ t.filePath = p.1

/-- Structural invariant of the mapping, as an executable check. -/
def mappingOkB (m : FailureMap) : Bool :=
  m.all fun p =>
    !p.2.isEmpty && p.2.all fun t => t.status == "failed" && t.filePath == p.1

/-- Lower-case hexadecimal digit, as produced by `JSON.stringify` when it
escapes a control character. -/
def hexDigit (n : Nat) : Char :=
  if n < 10 then Char.ofNat (48 + n) else Char.ofNat (87 + n)

/-- Escaping of one character inside a JSON string literal, following
`JSON.stringify`: quote, backslash, the short control escapes, and `\u00xx`
for the remaining control characters. -/
def escapeJsonChar (c : Char) : String :=
  if c = '"' then "\\\""
  else if c = '\\' then "\\\\"
  else if c = '\x08' then "\\b"
  else if c = '\t' then "\\t"
  else if c = '\n' then "\\n"
  else if c = '\x0c' then "\\f"
  else if c = '\r' then "\\r"
  else if c.toNat < 32 then
    "\\u00" ++ String.mk [hexDigit (c.toNat / 16), hexDigit (c.toNat % 16)]
  else String.singleton c

/-- Body of a JSON string literal. -/
def escapeJsonString (s : String) : String :=
  String.join (s.data.map escapeJsonChar)

/-- A JSON string literal with its surrounding quotes. -/
def quoteJson (s : String) : String :=
  "\"" ++ escapeJsonString s ++ "\""

/-- An optional string member of a JSON object: omitted entirely when the
field is absent (as `JSON.stringify` omits `undefined` members), otherwise
emitted with its leading comma. -/
def optStrField (key : String) (v : Option String) : String :=
  match v with
  | some s => "," ++ quoteJson key ++ ":" ++ quoteJson s
  | none => ""

/-- Serialization of one test record, members in the declaration order of
the `Test` interface. -/
def testToJsonStr (t : Test) : String :=
  "\x7b" ++ quoteJson ("name") ++ ":" ++ quoteJson t.name
    ++ "," ++ quoteJson ("status") ++ ":" ++ quoteJson t.status
    ++ "," ++ quoteJson ("duration") ++ ":" ++ toString t.duration
    ++ optStrField ("message") t.message
    ++ optStrField ("trace") t.trace
    ++ "," ++ quoteJson ("rawStatus") ++ ":" ++ quoteJson t.rawStatus
    ++ "," ++ quoteJson ("type") ++ ":" ++ quoteJson t.type
    ++ "," ++ quoteJson ("filePath") ++ ":" ++ quoteJson t.filePath
    ++ "," ++ quoteJson ("retries") ++ ":" ++ toString t.retries
    ++ "," ++ quoteJson ("flaky") ++ ":" ++ (if t.flaky then "true" else "false")
    ++ "," ++ quoteJson ("browser") ++ ":" ++ quoteJson t.browser
    ++ "\x7d"

/-- Serialization of an array of tests. -/
def testsToJsonStr (ts : List Test) : String :=
  "[" ++ String.intercalate (",") (ts.map testToJsonStr) ++ "]"

/-- Serialization of the pass-through `summary` object. -/
def summaryToJsonStr (s : Summary) : String :=
  "\x7b"
    ++ String.intercalate (",") (s.map fun p => quoteJson p.1 ++ ":" ++ toString p.2)
    ++ "\x7d"

/-- Serialization of the failure mapping. -/
def mappingToJsonStr (m : FailureMap) : String :=
  "\x7b"
    ++ String.intercalate (",") (m.map fun p => quoteJson p.1 ++ ":" ++ testsToJsonStr p.2)
    ++ "\x7d"

/-- Embedding of `JSON.stringify({summary: summary, failed_tests_by_file:
failedTestsByFile})` (`part_000` lines 53-56). -/
def stringifyPayload (s : Summary) (m : FailureMap) : String :=
  "\x7b" ++ ("\"summary\":" ++ summaryToJsonStr s
    ++ ",\"failed_tests_by_file\":" ++ mappingToJsonStr m ++ "\x7d")

/-- The `results` member of the parsed report: both of its inspected fields
may be absent. -/
structure RawResults where
  summary : Option Summary
  tests : Option (List Test)
deriving DecidableEq

/-- The whole parsed report document: the `results` member itself may be
absent. -/
structure ReportData where
  results : Option RawResults
deriving DecidableEq

/-- Embedding of `data.results || {}` (`part_000` line 17). -/
def getResults (d : ReportData) : RawResults :=
  d.results.getD { summary := none, tests := none }

/-- Embedding of `results.summary || {}` (`part_000` line 18). -/
def getSummary (r : RawResults) : Summary :=
  r.summary.getD []

/-- Embedding of `results.tests || []` (`part_000` line 19). -/
def getTests (r : RawResults) : List Test :=
  r.tests.getD []

/-- Embedding of the output decision of `part_000` lines 48-60: build the
mapping, then set the step output `output` either to the JSON payload (when
`summary` and the mapping are both non-empty) or to the literal success
string. -/
def runOutput (summary : Summary) (tests : List Test) : String :=
  if 0 < summary.length ∧ 0 < (failedTestsByFile tests).length then
    stringifyPayload summary (failedTestsByFile tests)
  else "All tests were successfull!"

/-- A thrown JS value: either an `Error` instance carrying a message, or any
other value. -/
inductive JsError where
  | error (message : String)
  | nonError
deriving DecidableEq

/-- Embedding of the shared `catch` block (`part_000` lines 61-68, `main.ts`
lines 322-328): the message handed to `core.setFailed`. -/
def errMessage : JsError → String
  | .error m => m
  | .nonError => "An unknown error occurred."

/-- The effects environment of `part_000`: `core.getInput('file')`,
`fs.readFileSync` and `JSON.parse`, each of which may throw. -/
structure ActionEnv where
  fileInput : Except JsError String
  readFile : String → Except JsError String
  parseJson : String → Except JsError ReportData

/-- The fallible stages of the `try` block of `part_000` (lines 14-16). -/
def tryBody (env : ActionEnv) : Except JsError ReportData := do
  let file ← env.fileInput
  let content ← env.readFile file
  env.parseJson content

/-- Observable outcome of the `part_000` action: either `core.setOutput`
with a value (step succeeds) or `core.setFailed` with a message. -/
inductive StepResult where
  | output (value : String)
  | failed (message : String)
deriving DecidableEq

/-- Embedding of `run` of `part_000` (lines 9-68). -/
def run (env : ActionEnv) : StepResult :=
  match tryBody env with
  | .ok data =>
      let results := getResults data
      .output (runOutput (getSummary results) (getTests results))
  | .error e => .failed (errMessage e)

/-- The `pull_request` member of a PR event payload, restricted to the
fields `parseGitEvent` reads. -/
structure PRData where
  html_url : String
  created_at : String
  title : String
  user_login : String
  head_ref : String
deriving DecidableEq

/-- The `head_commit` member of a commit event payload, restricted to the
fields `parseGitEvent` reads. -/
structure CommitData where
  timestamp : String
  url : String
  message : String
  id : String
  author_name : String
  author_username : Option String
deriving DecidableEq

/-- An incoming event payload: either recognized member may be present or
absent independently (the precedence question needs payloads carrying
both). -/
structure GitEventPayload where
  ref : String
  repository_html_url : String
  pull_request : Option PRData
  head_commit : Option CommitData
deriving DecidableEq

/-- The `ParsedGitEvent` interface (`main.ts` lines 54-63). The first
`main.ts` variant stores `head_commit.author.username`, which is optional,
so `user` is embedded as `Option String`. -/
structure ParsedGitEvent where
  type : String
  repoUrl : String
  eventUrl : String
  user : Option String
  time : String
  branch : String
  message : String
  commitId : Option String
deriving DecidableEq

/-- Accumulator pass of the JS `String.prototype.split` embedding. -/
def splitOnCharAux (sep : Char) : List Char → List Char → List String
  | [], acc => [String.mk acc.reverse]
  | c :: cs, acc =>
      if c = sep then String.mk acc.reverse :: splitOnCharAux sep cs []
      else splitOnCharAux sep cs (c :: acc)

/-- Embedding of JS `s.split(sep)` for a one-character separator: always
yields at least one (possibly empty) segment. -/
def jsSplit (s : String) (sep : Char) : List String :=
  splitOnCharAux sep s.data []

/-- Whether the `|| payload.ref` fallback of `main.ts` line 87 is taken:
`split('/')` always yields a non-empty array, so `pop()` is falsy exactly
when the last segment is the empty string. -/
def commitBranchUsedFallback (ref : String) : Bool :=
  ((jsSplit ref '/').getLastD ("")) == ""

/-- Embedding of `payload.ref.split('/').pop() || payload.ref` (`main.ts`
line 87). -/
def commitBranch (ref : String) : String :=
  if commitBranchUsedFallback ref then ref else (jsSplit ref '/').getLastD ("")

/-- Embedding of `parseGitEvent` (`main.ts` lines 72-100, first variant):
`pull_request` presence is checked first, then `head_commit`; otherwise an
`Error` with the unsupported-payload message is thrown. -/
def parseGitEvent (p : GitEventPayload) : Except String ParsedGitEvent :=
  match p.pull_request with
  | some pr =>
      Except.ok {
        type := "pull_request"
        repoUrl := p.repository_html_url
        eventUrl := pr.html_url
        user := some pr.user_login
        time := pr.created_at
        branch := pr.head_ref
        message := pr.title
        commitId := none }
  | none =>
      match p.head_commit with
      | some commit =>
          Except.ok {
            type := "commit"
            repoUrl := p.repository_html_url
            eventUrl := commit.url
            user := commit.author_username
            time := commit.timestamp
            branch := commitBranch p.ref
            message := commit.message
            commitId := some commit.id }
      | none => Except.error ("Unsupported GitHub event payload")

/-- The branch the parser derived, when parsing succeeded. -/
def parsedBranch (r : Except String ParsedGitEvent) : Option String :=
  match r with
  | .ok ev => some ev.branch
  | .error _ => none

/-- Embedding of `summary.failed` on the pass-through summary object:
`undefined` when the key is absent. -/
def lookupSummary (s : Summary) (k : String) : Option Int :=
  match s with
  | [] => none
  | (k', v) :: rest => if k' = k then some v else lookupSummary rest k

/-- Embedding of the counter-gated branch decision of the first `main.ts`
variant (lines 134-136): `Object.keys(summary).length > 0 && summary.failed
> 0`, where a missing `failed` counter compares falsy. -/
def runFailureBranchB (summary : Summary) : Bool :=
  decide (0 < summary.length) &&
    (match lookupSummary summary ("failed") with
     | some n => decide (0 < n)
     | none => false)

/-- The effects environment of either `main.ts` variant: the ambient event
payload plus the same three fallible stages as `part_000`. -/
structure MainEnv where
  payload : GitEventPayload
  fileInput : Except JsError String
  readFile : String → Except JsError String
  parseJson : String → Except JsError ReportData

/-- The fallible stages of the `try` block of `main.ts`: event parsing
first (its thrown `Error` carries the unsupported-payload message), then
input retrieval, file read and JSON parse. -/
def mainTryBody (env : MainEnv) : Except JsError (ParsedGitEvent × ReportData) := do
  let ev ← match parseGitEvent env.payload with
    | .ok ev => Except.ok ev
    | .error m => Except.error (JsError.error m)
  let file ← env.fileInput
  let content ← env.readFile file
  let data ← env.parseJson content
  pure (ev, data)

/-- Observable outcome of a `main.ts` run: both variants only log, so the
step succeeds with one of two branches (`logged true` is the red "Some
tests failed" branch), or fails through `core.setFailed`. -/
inductive MainResult where
  | logged (someFailed : Bool)
  | failed (message : String)
deriving DecidableEq

/-- Embedding of `run` of the second (presence-gated) `main.ts` variant
(lines 271-329). -/
def runMain (env : MainEnv) : MainResult :=
  match mainTryBody env with
  | .ok (_, data) =>
      let results := getResults data
      let summary := getSummary results
      let m := failedTestsByFile (getTests results)
      .logged (decide (0 < summary.length) && decide (0 < m.length))
  | .error e => .failed (errMessage e)

/-- Embedding of `run` of the first (counter-gated) `main.ts` variant
(lines 107-150). -/
def runMainB (env : MainEnv) : MainResult :=
  match mainTryBody env with
  | .ok (_, data) => .logged (runFailureBranchB (getSummary (getResults data)))
  | .error e => .failed (errMessage e)

/-- A concrete failed test record. -/
def sampleFailedTest : Test :=
  { name := "a", status := "failed", duration := 13, message := some ("boom")
    trace := none, rawStatus := "failed", type := "e2e"
    filePath := "x.spec.ts", retries := 0, flaky := false
    browser := "chromium" }

/-- A concrete passed test record on the same file. -/
def samplePassedTest : Test :=
  { name := "b", status := "passed", duration := 7, message := none
    trace := none, rawStatus := "passed", type := "e2e"
    filePath := "x.spec.ts", retries := 0, flaky := false
    browser := "chromium" }

/-- A concrete non-empty summary. -/
def sampleSummary : Summary := [("total", 2), ("failed", 1)]

/-- A concrete `pull_request` member. -/
def samplePRData : PRData :=
  { html_url := "https://example.com/pr/1", created_at := "2024-01-01"
    title := "PR title", user_login := "octocat", head_ref := "feature" }

/-- A concrete `head_commit` member. -/
def sampleCommitData : CommitData :=
  { timestamp := "2024-01-01", url := "https://example.com/c/abc"
    message := "commit msg", id := "abc123", author_name := "Octo Cat"
    author_username := some ("octocat") }

/-- A payload carrying both recognized members at once. -/
def bothPayload : GitEventPayload :=
  { ref := "refs/heads/main", repository_html_url := "https://example.com/repo"
    pull_request := some samplePRData, head_commit := some sampleCommitData }

/-- A commit payload with the given ref and no `pull_request` member. -/
def mkCommitPayload (ref : String) : GitEventPayload :=
  { ref := ref, repository_html_url := "https://example.com/repo"
    pull_request := none, head_commit := some sampleCommitData }

/-- A payload carrying neither recognized member. -/
def emptyPayload : GitEventPayload :=
  { ref := "refs/heads/main", repository_html_url := "https://example.com/repo"
    pull_request := none, head_commit := none }

/-- A report document with the given optional fields present. -/
def sampleReport (s : Option Summary) (ts : Option (List Test)) : ReportData :=
  { results := some { summary := s, tests := ts } }

/-- An environment whose three stages all succeed, delivering `d`. -/
def mkEnv (d : ReportData) : ActionEnv :=
  { fileInput := Except.ok ("report.json")
    readFile := fun _ => Except.ok ("content")
    parseJson := fun _ => Except.ok d }

/-- An environment whose file read throws an `Error` with message
`"boom"`. -/
def envErr : ActionEnv :=
  { fileInput := Except.ok ("report.json")
    readFile := fun _ => Except.error (JsError.error ("boom"))
    parseJson := fun _ => Except.ok (sampleReport none none) }

/-- A `main.ts` environment whose event payload is unsupported. -/
def menvErr : MainEnv :=
  { payload := emptyPayload
    fileInput := Except.ok ("report.json")
    readFile := fun _ => Except.ok ("content")
    parseJson := fun _ => Except.ok (sampleReport none none) }

/-- A `main.ts` environment delivering an empty test list together with a
summary claiming one failure. -/
def menvC4 : MainEnv :=
  { payload := mkCommitPayload ("refs/heads/main")
    fileInput := Except.ok ("report.json")
    readFile := fun _ => Except.ok ("content")
    parseJson := fun _ => Except.ok (sampleReport (some [("failed", 1)]) (some [])) }

theorem lookupList_pushTest_same (m : FailureMap) (k : String) (t : Test) :
    lookupList (pushTest m k t) k = lookupList m k ++ [t] := by
  induction m with
  | nil => simp [pushTest, lookupList]
  | cons p rest ih =>
      obtain ⟨k', ts⟩ := p
      by_cases h : k' = k
      · simp [pushTest, lookupList, h]
      · simp [pushTest, lookupList, h, ih]

theorem lookupList_pushTest_other (m : FailureMap) (k k' : String) (t : Test)
    (h : k' ≠ k) : lookupList (pushTest m k t) k' = lookupList m k' := by
  induction m with
  | nil => simp [pushTest, lookupList, Ne.symm h]
  | cons p rest ih =>
      obtain ⟨k₀, ts⟩ := p
      by_cases h0 : k₀ = k
      · subst h0
        simp [pushTest, lookupList, Ne.symm h]
      · by_cases h1 : k₀ = k'
        · subst h1
          simp [pushTest, lookupList, h0]
        · simp [pushTest, lookupList, h0, h1, ih]

theorem lookupList_processTest (m : FailureMap) (t : Test) (k : String) :
    lookupList (processTest m t) k
      = lookupList m k ++ (if isFailedAt k t then [t] else []) := by
  unfold processTest isFailedAt
  by_cases hs : t.status = "failed"
  · by_cases hp : t.filePath = k
    · subst hp
      simp [hs, lookupList_pushTest_same]
    · simp [hs, hp, lookupList_pushTest_other m t.filePath k t (Ne.symm hp)]
  · simp [hs]

theorem lookupList_foldl (tests : List Test) (m : FailureMap) (k : String) :
    lookupList (tests.foldl processTest m) k
      = lookupList m k ++ tests.filter (isFailedAt k) := by
  induction tests generalizing m with
  | nil => simp
  | cons t rest ih =>
      simp only [List.foldl_cons, ih, lookupList_processTest, List.filter_cons]
      by_cases h : isFailedAt k t
      · simp [h]
      · simp [h]

theorem pushTest_ne_nil (m : FailureMap) (k : String) (t : Test) :
    pushTest m k t ≠ [] := by
  cases m with
  | nil => simp [pushTest]
  | cons p rest =>
      obtain ⟨k', ts⟩ := p
      by_cases h : k' = k <;> simp [pushTest, h]

theorem processTest_eq_nil_iff (m : FailureMap) (t : Test) :
    processTest m t = [] ↔ m = [] ∧ t.status ≠ "failed" := by
  unfold processTest
  by_cases hs : t.status = "failed"
  · simp [hs, pushTest_ne_nil]
  · simp [hs]

theorem foldl_processTest_eq_nil_iff (tests : List Test) (m : FailureMap) :
    tests.foldl processTest m = []
      ↔ m = [] ∧ ∀ t ∈ tests, t.status ≠ "failed" := by
  induction tests generalizing m with
  | nil => simp
  | cons t rest ih =>
      simp only [List.foldl_cons, ih, processTest_eq_nil_iff, List.mem_cons]
      constructor
      · rintro ⟨⟨hm, ht⟩, hrest⟩
        refine ⟨hm, ?_⟩
        rintro x (rfl | hx)
        · exact ht
        · exact hrest x hx
      · rintro ⟨hm, hall⟩
        exact ⟨⟨hm, hall t (Or.inl rfl)⟩, fun x hx => hall x (Or.inr hx)⟩

theorem failedTestsByFile_eq_nil_iff (tests : List Test) :
    failedTestsByFile tests = [] ↔ ∀ t ∈ tests, t.status ≠ "failed" := by
  simp [failedTestsByFile, foldl_processTest_eq_nil_iff]

theorem totalCount_pushTest (m : FailureMap) (k : String) (t : Test) :
    totalCount (pushTest m k t) = totalCount m + 1 := by
  induction m with
  | nil => simp [pushTest, totalCount]
  | cons p rest ih =>
      obtain ⟨k', ts⟩ := p
      simp only [totalCount] at ih
      by_cases h : k' = k
      · simp [pushTest, totalCount, h]
        omega
      · simp [pushTest, totalCount, h]
        omega

theorem totalCount_processTest (m : FailureMap) (t : Test) :
    totalCount (processTest m t)
      = totalCount m + (if t.status = "failed" then 1 else 0) := by
  unfold processTest
  by_cases hs : t.status = "failed"
  · simp [hs, totalCount_pushTest]
  · simp [hs]

theorem totalCount_foldl (tests : List Test) (m : FailureMap) :
    totalCount (tests.foldl processTest m)
      = totalCount m + (tests.filter fun t => t.status == "failed").length := by
  induction tests generalizing m with
  | nil => simp
  | cons t rest ih =>
      simp only [List.foldl_cons, ih, totalCount_processTest, List.filter_cons]
      by_cases hs : t.status = "failed"
      · simp [hs]
        omega
      · simp [hs]

theorem mappingOkB_eq_true_iff (m : FailureMap) :
    mappingOkB m = true ↔ mappingOk m := by
  simp [mappingOkB, mappingOk, List.all_eq_true, List.isEmpty_iff]

theorem mappingOk_pushTest (m : FailureMap) (k : String) (t : Test)
    (hm : mappingOk m) (hs : t.status = "failed") (hp : t.filePath = k) :
    mappingOk (pushTest m k t) := by
  induction m with
  | nil =>
      simp only [pushTest]
      rintro p hp'
      simp only [List.mem_singleton] at hp'
      subst hp'
      exact ⟨by simp, by simpa using ⟨hs, hp⟩⟩
  | cons q rest ih =>
      obtain ⟨k', ts⟩ := q
      have hhead := hm (k', ts) (List.mem_cons_self _ _)
      have hrest : mappingOk rest := fun p hp' => hm p (List.mem_cons_of_mem _ hp')
      by_cases h : k' = k
      · subst h
        simp only [pushTest, if_pos rfl]
        intro p hmem
        rcases List.mem_cons.mp hmem with hp' | hp'
        · subst hp'
          refine ⟨by simp, ?_⟩
          intro x hx
          rcases List.mem_append.mp hx with hx | hx
          · exact hhead.2 x hx
          · simp only [List.mem_singleton] at hx
            subst hx
            exact ⟨hs, hp⟩
        · exact hrest p hp'
      · simp only [pushTest, if_neg h]
        intro p hmem
        rcases List.mem_cons.mp hmem with hp' | hp'
        · subst hp'
          exact hhead
        · exact ih hrest p hp'

theorem mappingOk_processTest (m : FailureMap) (t : Test) (hm : mappingOk m) :
    mappingOk (processTest m t) := by
  unfold processTest
  by_cases hs : t.status = "failed"
  · simpa [hs] using mappingOk_pushTest m t.filePath t hm hs rfl
  · simpa [hs] using hm

theorem mappingOk_foldl (tests : List Test) (m : FailureMap)
    (hm : mappingOk m) : mappingOk (tests.foldl processTest m) := by
  induction tests generalizing m with
  | nil => simpa using hm
  | cons t rest ih =>
      simpa using ih (processTest m t) (mappingOk_processTest m t hm)

theorem mappingOk_failedTestsByFile (tests : List Test) :
    mappingOk (failedTestsByFile tests) := by
  refine mappingOk_foldl tests [] ?_
  rintro p hp
  simp at hp

theorem brace_append_ne_success (r : String) :
    ("\x7b" ++ r) ≠ "All tests were successfull!" := by
  intro h
  have h2 := congrArg String.data h
  rw [String.data_append] at h2
  simp at h2

theorem stringifyPayload_ne_success (s : Summary) (m : FailureMap) :
    stringifyPayload s m ≠ "All tests were successfull!" := by
  unfold stringifyPayload
  exact brace_append_ne_success _

/-- C1: for every input sequence of test records, every test stored in any
list of the failure mapping produced by the aggregation has status exactly
`"failed"`. -/
theorem claim_C1 (tests : List Test) :
    ((failedTestsByFile tests).all fun p =>
      p.2.all fun t => t.status == "failed") = true := by
  have h := mappingOk_failedTestsByFile tests
  simp only [List.all_eq_true, beq_iff_eq]
  intro p hp t ht
  exact ((h p hp).2 t ht).1

/-- C2: for every input sequence and every file-path key, the list stored
under that key in the failure mapping is exactly the subsequence of the
input consisting of the failed tests with that `filePath`, in input order
and without deduplication. -/
theorem claim_C2 (tests : List Test) (k : String) :
    lookupList (failedTestsByFile tests) k = tests.filter (isFailedAt k) := by
  have h := lookupList_foldl tests [] k
  simpa [failedTestsByFile, lookupList] using h

/-- C3: in the presence-gated variant, the step output `output` is the
JSON-encoded payload exactly when `summary` is non-empty and the failure
mapping has at least one key, and the exact literal
`"All tests were successfull!"` in every other case; the two possible
output strings never coincide. -/
theorem claim_C3 (summary : Summary) (tests : List Test) :
    (runOutput summary tests
      = if summary ≠ [] ∧ failedTestsByFile tests ≠ [] then
          stringifyPayload summary (failedTestsByFile tests)
        else "All tests were successfull!")
    ∧ stringifyPayload summary (failedTestsByFile tests)
        ≠ "All tests were successfull!" := by
  constructor
  · unfold runOutput
    exact if_congr (by simp [List.length_pos]) rfl rfl
  · exact stringifyPayload_ne_success _ _

/-- C4 (counterexample): in the counter-gated `main.ts` variant, a report
whose `tests` list is empty but whose summary claims a positive `failed`
counter takes the red failure branch (`logged true`), contradicting the
claim that the success branch is taken regardless of the summary. -/
theorem claim_C4_counterexample :
    getTests (getResults (sampleReport (some [("failed", 1)]) (some []))) = []
    ∧ runMainB menvC4 = MainResult.logged true :=
  ⟨rfl, rfl⟩

/-- C4 (amended): in the presence-gated `part_000` variant, a report whose
`tests` field is empty or absent yields an empty failure mapping and the
success output, regardless of the summary, and never a step failure. -/
theorem claim_C4 (env : ActionEnv) (d : ReportData)
    (h1 : tryBody env = Except.ok d)
    (h2 : (getResults d).tests = none ∨ (getResults d).tests = some []) :
    failedTestsByFile (getTests (getResults d)) = []
    ∧ run env = StepResult.output ("All tests were successfull!") := by
  have htests : getTests (getResults d) = [] := by
    rcases h2 with h2 | h2 <;> simp [getTests, h2]
  have hmap : failedTestsByFile (getTests (getResults d)) = [] := by
    rw [htests]
    rfl
  refine ⟨hmap, ?_⟩
  simp only [run, h1]
  simp [runOutput, hmap]

/-- C4 (witness): a concrete run with an absent `tests` field and a
non-empty summary takes the success output. -/
theorem claim_C4_witness :
    failedTestsByFile
        (getTests (getResults (sampleReport (some sampleSummary) none))) = []
    ∧ run (mkEnv (sampleReport (some sampleSummary) none))
        = StepResult.output ("All tests were successfull!") :=
  claim_C4 (mkEnv (sampleReport (some sampleSummary) none))
    (sampleReport (some sampleSummary) none) rfl (Or.inl rfl)

/-- C5: when the `summary` field of the report is absent it defaults to the
empty object, the non-emptiness gate fails, and the success output is set —
even when failed tests exist. -/
theorem claim_C5 (env : ActionEnv) (d : ReportData)
    (h1 : tryBody env = Except.ok d) (h2 : (getResults d).summary = none) :
    run env = StepResult.output ("All tests were successfull!") := by
  have hsum : getSummary (getResults d) = [] := by
    simp [getSummary, h2]
  simp only [run, h1]
  simp [runOutput, hsum]

/-- C5 (witness): a concrete run with no summary and one failed test still
takes the success output. -/
theorem claim_C5_witness :
    run (mkEnv (sampleReport none (some [sampleFailedTest])))
      = StepResult.output ("All tests were successfull!") :=
  claim_C5 (mkEnv (sampleReport none (some [sampleFailedTest])))
    (sampleReport none (some [sampleFailedTest])) rfl rfl

/-- C6: a payload carrying a `pull_request` member is always parsed as a
pull-request event — even when a `head_commit` member is also present — and
the commit branch of the parser is reached only when no `pull_request`
member is present. -/
theorem claim_C6 (p : GitEventPayload) (pr : PRData)
    (h : p.pull_request = some pr) :
    parseGitEvent p = Except.ok {
        type := "pull_request", repoUrl := p.repository_html_url
        eventUrl := pr.html_url, user := some pr.user_login
        time := pr.created_at, branch := pr.head_ref
        message := pr.title, commitId := none }
    ∧ ∀ (q : GitEventPayload) (ev : ParsedGitEvent),
        parseGitEvent q = Except.ok ev → ev.type = "commit"
          → q.pull_request = none := by
  constructor
  · simp [parseGitEvent, h]
  · intro q ev hq htype
    cases hpr : q.pull_request with
    | none => rfl
    | some pr' =>
        exfalso
        simp only [parseGitEvent, hpr] at hq
        injection hq with h2
        rw [← h2] at htype
        simp at htype

/-- C6 (witness): the concrete payload carrying both members is parsed as a
pull-request event. -/
theorem claim_C6_witness :
    parseGitEvent bothPayload = Except.ok {
        type := "pull_request", repoUrl := "https://example.com/repo"
        eventUrl := "https://example.com/pr/1", user := some ("octocat")
        time := "2024-01-01", branch := "feature", message := "PR title"
        commitId := none } :=
  (claim_C6 bothPayload samplePRData rfl).1

/-- C7 (counterexample): for the commit payload with ref `"main"` the
parser does derive branch `"main"`, but not via the `|| payload.ref`
fallback: `split('/')` on `"main"` yields the one truthy segment `"main"`,
so the fallback condition is false. -/
theorem claim_C7_counterexample :
    commitBranchUsedFallback ("main") = false
    ∧ parsedBranch (parseGitEvent (mkCommitPayload ("main"))) = some ("main") :=
  ⟨rfl, rfl⟩

/-- C7 (amended): ref `"refs/heads/main"` derives branch `"main"`, and ref
`"main"` also derives branch `"main"` — directly as the last split segment,
not via the fallback; the fallback fires exactly when the last segment is
empty, e.g. ref `"refs/heads/"` derives the whole ref as branch. -/
theorem claim_C7 :
    parsedBranch (parseGitEvent (mkCommitPayload ("refs/heads/main")))
        = some ("main")
    ∧ parsedBranch (parseGitEvent (mkCommitPayload ("main"))) = some ("main")
    ∧ commitBranchUsedFallback ("main") = false
    ∧ commitBranchUsedFallback ("refs/heads/") = true
    ∧ parsedBranch (parseGitEvent (mkCommitPayload ("refs/heads/")))
        = some ("refs/heads/") :=
  ⟨rfl, rfl, rfl, rfl, rfl⟩

/-- C8: `parseGitEvent` throws the unsupported-payload error exactly when
the payload carries neither a `pull_request` nor a `head_commit` member,
and succeeds exactly when it carries at least one of the two. -/
theorem claim_C8 (p : GitEventPayload) :
    (parseGitEvent p = Except.error ("Unsupported GitHub event payload")
      ↔ p.pull_request = none ∧ p.head_commit = none)
    ∧ ((∃ ev, parseGitEvent p = Except.ok ev)
      ↔ (p.pull_request.isSome = true ∨ p.head_commit.isSome = true)) := by
  cases hpr : p.pull_request <;> cases hhc : p.head_commit <;>
    simp [parseGitEvent, hpr, hhc]

/-- C9: an exception in any fallible stage is caught at the single
top-level boundary and becomes a step failure carrying the `Error` message
(or the fixed unknown-error string for non-`Error` values), and no output
variable is set on the error path — in the output-setting `part_000` run
and in the logging `main.ts` run alike. -/
theorem claim_C9 (env : ActionEnv) (menv : MainEnv) (e e' : JsError)
    (h1 : tryBody env = Except.error e)
    (h2 : mainTryBody menv = Except.error e') :
    ((∀ m, e = JsError.error m → run env = StepResult.failed m)
      ∧ (e = JsError.nonError
          → run env = StepResult.failed ("An unknown error occurred."))
      ∧ ∀ s, run env ≠ StepResult.output s)
    ∧ (∀ m, e' = JsError.error m → runMain menv = MainResult.failed m)
    ∧ (e' = JsError.nonError
        → runMain menv = MainResult.failed ("An unknown error occurred.")) := by
  have hrun : run env = StepResult.failed (errMessage e) := by
    simp [run, h1]
  have hmain : runMain menv = MainResult.failed (errMessage e') := by
    simp [runMain, h2]
  refine ⟨⟨?_, ?_, ?_⟩, ?_, ?_⟩
  · rintro m rfl
    simpa [errMessage] using hrun
  · rintro rfl
    simpa [errMessage] using hrun
  · intro s hcontra
    rw [hrun] at hcontra
    exact StepResult.noConfusion hcontra
  · rintro m rfl
    simpa [errMessage] using hmain
  · rintro rfl
    simpa [errMessage] using hmain

/-- C9 (witness): a concrete file-read error fails the `part_000` step with
its message, and a concrete unsupported payload fails the `main.ts` step
with the unsupported-payload message. -/
theorem claim_C9_witness :
    run envErr = StepResult.failed ("boom")
    ∧ runMain menvErr
        = MainResult.failed ("Unsupported GitHub event payload") := by
  have h := claim_C9 envErr menvErr (JsError.error ("boom"))
    (JsError.error ("Unsupported GitHub event payload")) rfl rfl
  exact ⟨h.1.1 ("boom") rfl, h.2.1 ("Unsupported GitHub event payload") rfl⟩

/-- C10: the failure mapping always satisfies its structural invariant —
every key holds a non-empty list of failed tests whose `filePath` equals
the key — and stores exactly as many tests as the input has failed tests. -/
theorem claim_C10 (tests : List Test) :
    mappingOkB (failedTestsByFile tests) = true
    ∧ totalCount (failedTestsByFile tests)
        = (tests.filter fun t => t.status == "failed").length := by
  refine ⟨(mappingOkB_eq_true_iff _).mpr (mappingOk_failedTestsByFile tests), ?_⟩
  have h := totalCount_foldl tests []
  simpa [failedTestsByFile, totalCount] using h

end TestReportAction
